import Mathlib

/-!
Verification development for the multi-phase AI code-generation backend
(open-lovable).  The definitions below are shallow embeddings of the
TypeScript source: pure functions become Lean functions, the regex-based
text analysis is embedded through a small backtracking regex engine whose
patterns transliterate the source regexes, and network/LLM calls are
modelled as oracle parameters supplying the response text per call.
-/

set_option maxRecDepth 20000

/-! ## Character and string utilities (JS string-method semantics) -/

/-- The single-quote character (ASCII 39). -/
def sqc : Char := Char.ofNat 39

/-- The single-quote character as a string. -/
def sqS : String := String.mk [sqc]

/-- JS whitespace test (the characters matched by `\s` that occur in our data). -/
def isWs (c : Char) : Bool :=
  c == ' ' || c == '\t' || c == '\n' || c == '\r' || c == Char.ofNat 11 || c == Char.ofNat 12

/-- JS `\w` word-character test. -/
def isWordChar (c : Char) : Bool :=
  (c ≥ 'a' && c ≤ 'z') || (c ≥ 'A' && c ≤ 'Z') || (c ≥ '0' && c ≤ '9') || c == '_'

/-- Does the list start with the given pattern? -/
def startsWithL : List Char → List Char → Bool
  | _, [] => true
  | [], _ :: _ => false
  | c :: cs, p :: ps => c == p && startsWithL cs ps

/-- Does the list contain the pattern as a contiguous sublist?
(JS `String.prototype.includes`.) -/
def containsL (s pat : List Char) : Bool :=
  if startsWithL s pat then true
  else
    match s with
    | [] => false
    | _ :: rest => containsL rest pat

/-- JS `s.includes(pat)`. -/
def strIncludes (s pat : String) : Bool := containsL s.data pat.data

/-- Non-overlapping occurrence count of a literal pattern, fueled (JS
`(s.match(new RegExp(word, 'g')) || []).length` for a literal word). -/
def countOccurFuel (pat : List Char) : Nat → List Char → Nat
  | 0, _ => 0
  | _, [] => 0
  | fuel + 1, c :: rest =>
    if pat ≠ [] && startsWithL (c :: rest) pat then
      1 + countOccurFuel pat fuel ((c :: rest).drop pat.length)
    else
      countOccurFuel pat fuel rest

/-- Non-overlapping occurrence count of a literal pattern. -/
def countOccur (s pat : String) : Nat := countOccurFuel pat.data s.data.length s.data

/-- Lowercase every character (JS `toLowerCase` on our ASCII data). -/
def lowerS (s : String) : String := String.mk (s.data.map Char.toLower)

/-- JS `String.prototype.trim`. -/
def trimL (s : List Char) : List Char :=
  ((s.dropWhile (fun c => isWs c)).reverse.dropWhile (fun c => isWs c)).reverse

/-- JS `String.prototype.trim` on strings. -/
def trimS (s : String) : String := String.mk (trimL s.data)

/-- Split on a literal character keeping empty fields (JS `split('\n')`). -/
def splitOnCharL (sep : Char) : List Char → List (List Char)
  | [] => [[]]
  | c :: rest =>
    if c == sep then [] :: splitOnCharL sep rest
    else
      match splitOnCharL sep rest with
      | [] => [[c]]
      | t :: ts => (c :: t) :: ts

/-- JS `s.split('\n')` as strings. -/
def splitLines (s : String) : List String := (splitOnCharL '\n' s.data).map String.mk

/-- JS `s.split(/\s+/)`: cut at maximal whitespace runs, keeping a leading and
trailing empty field when the string starts/ends with whitespace.  `inWs`
records whether the previous character belonged to a whitespace run. -/
def splitWsCore : List Char → List Char → Bool → List (List Char)
  | cur, [], _ => [cur.reverse]
  | cur, c :: rest, inWs =>
    if isWs c then
      if inWs then splitWsCore cur rest true
      else cur.reverse :: splitWsCore [] rest true
    else splitWsCore (c :: cur) rest false

/-- JS `s.split(/\s+/)` on strings. -/
def splitWs (s : String) : List String := (splitWsCore [] s.data false).map String.mk

/-! ## A tiny backtracking regex engine

Just enough of the JS regex dialect for the patterns in the source:
literal characters, character classes, `\w`, `\s`, any-char `.` and
`[\s\S]`, greedy and lazy star, plus, optional, alternation and one level
of capture groups (the source only ever reads one capture per pattern, so
only the group the source reads is modelled as capturing). -/

/-- A single-character regex atom. -/
inductive RAtom where
  | lit (c : Char)
  | noneOf (cs : List Char)
  | oneOf (cs : List Char)
  | word
  | ws
  | anyNoNl
  | anyCh
deriving Repr, DecidableEq

/-- Does the atom match the character? -/
def matchAtom : RAtom → Char → Bool
  | .lit c, d => c == d
  | .noneOf cs, d => !(cs.contains d)
  | .oneOf cs, d => cs.contains d
  | .word, d => isWordChar d
  | .ws, d => isWs d
  | .anyNoNl, d => d != '\n'
  | .anyCh, _ => true

/-- Regular expressions over atoms. -/
inductive RE where
  | eps
  | ch (a : RAtom)
  | seq (r1 r2 : RE)
  | alt (r1 r2 : RE)
  | star (a : RAtom)
  | starLzy (a : RAtom)
  | plus (a : RAtom)
  | opt (r : RE)
  | grp (r : RE)
deriving Repr

/-- Sequence a list of regexes. -/
def reSeq (rs : List RE) : RE := rs.foldr RE.seq RE.eps

/-- Literal string as a regex. -/
def reLit (s : String) : RE := reSeq (s.data.map (fun c => RE.ch (.lit c)))

/-- Match continuation: remaining input and captures collected so far. -/
abbrev MCont := List Char → List (List Char) → Option (List Char × List (List Char))

/-- Greedy star over an atom, with backtracking through the continuation. -/
def starG (a : RAtom) : List Char → List (List Char) → MCont → Option (List Char × List (List Char))
  | [], caps, k => k [] caps
  | c :: rest, caps, k =>
    if matchAtom a c then
      match starG a rest caps k with
      | some r => some r
      | none => k (c :: rest) caps
    else k (c :: rest) caps

/-- Lazy star over an atom. -/
def starLz (a : RAtom) : List Char → List (List Char) → MCont → Option (List Char × List (List Char))
  | [], caps, k => k [] caps
  | c :: rest, caps, k =>
    match k (c :: rest) caps with
    | some r => some r
    | none => if matchAtom a c then starLz a rest caps k else none

/-- Backtracking matcher in continuation-passing style (leftmost-greedy,
the semantics of the JS engine for this fragment). -/
def matchRE : RE → List Char → List (List Char) → MCont → Option (List Char × List (List Char))
  | .eps, s, caps, k => k s caps
  | .ch a, s, caps, k =>
    match s with
    | [] => none
    | c :: rest => if matchAtom a c then k rest caps else none
  | .seq r1 r2, s, caps, k => matchRE r1 s caps (fun s' c' => matchRE r2 s' c' k)
  | .alt r1 r2, s, caps, k =>
    match matchRE r1 s caps k with
    | some r => some r
    | none => matchRE r2 s caps k
  | .star a, s, caps, k => starG a s caps k
  | .starLzy a, s, caps, k => starLz a s caps k
  | .plus a, s, caps, k =>
    match s with
    | [] => none
    | c :: rest => if matchAtom a c then starG a rest caps k else none
  | .opt r, s, caps, k =>
    match matchRE r s caps k with
    | some r' => some r'
    | none => k s caps
  | .grp r, s, caps, k =>
    matchRE r s caps (fun s' c' => k s' (c' ++ [s.take (s.length - s'.length)]))

/-- Try to match the regex at the start of the input; on success return the
matched prefix and the captures. -/
def matchAt (re : RE) (s : List Char) : Option (List Char × List (List Char)) :=
  match matchRE re s [] (fun rest caps => some (rest, caps)) with
  | some (rest, caps) => some (s.take (s.length - rest.length), caps)
  | none => none

/-- Find the leftmost match: returns (start index, matched text, captures). -/
def findFirstAux (re : RE) : List Char → Nat → Option (Nat × List Char × List (List Char))
  | [], i =>
    match matchAt re [] with
    | some (m, caps) => some (i, m, caps)
    | none => none
  | c :: rest, i =>
    match matchAt re (c :: rest) with
    | some (m, caps) => some (i, m, caps)
    | none => findFirstAux re rest (i + 1)

/-- Leftmost match of a regex in a string. -/
def findFirst (re : RE) (s : List Char) : Option (Nat × List Char × List (List Char)) :=
  findFirstAux re s 0

/-- JS `regex.test(s)` / `s.match(re) !== null`. -/
def reTest (re : RE) (s : String) : Bool := (findFirst re s.data).isSome

/-- All matches in order (JS global flag); fueled recursion, the fuel
`s.length + 1` always suffices because every step consumes input. -/
def findAllFuel (re : RE) : Nat → List Char → List (List Char × List (List Char))
  | 0, _ => []
  | fuel + 1, s =>
    match findFirst re s with
    | none => []
    | some (i, m, caps) => (m, caps) :: findAllFuel re fuel (s.drop (i + max m.length 1))

/-- JS `s.match(/re/g)`: the list of full match strings. -/
def findAllMatches (re : RE) (s : String) : List String :=
  ((findAllFuel re (s.data.length + 1) s.data).map (fun p => String.mk p.1))

/-- A piece of a replacement template: literal text or `$n`. -/
inductive RepPiece where
  | lit (s : String)
  | cap (n : Nat)
deriving Repr

/-- Instantiate a replacement template with the captures of a match. -/
def instTemplate (tmpl : List RepPiece) (caps : List (List Char)) : List Char :=
  tmpl.foldr (fun p acc =>
    match p with
    | .lit s => s.data ++ acc
    | .cap n => (caps.getD (n - 1) []) ++ acc) []

/-- JS `s.replace(/re/g, tmpl)`; the patterns used never match the empty
string, so a zero-length match ends the scan. -/
def replaceAllFuel (re : RE) (tmpl : List RepPiece) : Nat → List Char → List Char
  | 0, s => s
  | fuel + 1, s =>
    match findFirst re s with
    | none => s
    | some (i, m, caps) =>
      if m.length == 0 then s
      else s.take i ++ instTemplate tmpl caps ++ replaceAllFuel re tmpl fuel (s.drop (i + m.length))

/-- JS global regex replace on strings. -/
def replaceAllRE (re : RE) (tmpl : List RepPiece) (s : String) : String :=
  String.mk (replaceAllFuel re tmpl (s.data.length + 1) s.data)

/-- JS `s.replace(/re/, tmpl)` (no global flag: first match only). -/
def replaceFirstRE (re : RE) (tmpl : List RepPiece) (s : String) : String :=
  match findFirst re s.data with
  | none => s
  | some (i, m, caps) =>
    String.mk (s.data.take i ++ instTemplate tmpl caps ++ s.data.drop (i + m.length))

/-! ## error-detector.ts — detection patterns, auto-fix strategies -/

/-- Left brace character (written numerically throughout the file). -/
def lbr : Char := Char.ofNat 123

/-- Right brace character. -/
def rbr : Char := Char.ofNat 125

/-- Backtick character. -/
def btk : Char := Char.ofNat 96

/-- Left brace as a string. -/
def lbrS : String := String.mk [lbr]

/-- Right brace as a string. -/
def rbrS : String := String.mk [rbr]

/-- Backtick as a string. -/
def btkS : String := String.mk [btk]

/-- `"${"` — the template-literal opener tested with `code.includes`. -/
def dollarLbr : String := "$" ++ lbrS

/-- The `type` field of a `DetectedError`. -/
inductive ErrType where
  | synErr
  | template_literal
  | undefined_variable
  | missing_import
  | cors
  | logical
deriving Repr, DecidableEq

/-- The string the source stores in the `type` field. -/
def errTypeStr : ErrType → String
  | .synErr => "syntax"
  | .template_literal => "template_literal"
  | .undefined_variable => "undefined_variable"
  | .missing_import => "missing_import"
  | .cors => "cors"
  | .logical => "logical"

/-- Error severity levels. -/
inductive Severity where
  | low
  | medium
  | high
  | critical
deriving Repr, DecidableEq

/-- One detected defect (error-detector.ts `DetectedError`; the optional
`location` object is modelled by its only populated field, `code`). -/
structure DetectedError where
  type : ErrType
  severity : Severity
  message : String
  locationCode : Option String := none
  autoFixable : Bool
  fixStrategy : Option String := none
deriving Repr, DecidableEq

/-- `errorPatterns.templateLiteralQuotes.regex`, i.e. a single-quoted string
whose body is `[^']*\$\{[^}]+\}[^']*` with the body captured. -/
def reTL : RE :=
  reSeq [RE.ch (.lit sqc),
    RE.grp (reSeq [RE.star (.noneOf [sqc]), RE.ch (.lit '$'), RE.ch (.lit lbr),
      RE.plus (.noneOf [rbr]), RE.ch (.lit rbr), RE.star (.noneOf [sqc])]),
    RE.ch (.lit sqc)]

/-- `errorPatterns.undefinedVariables.regex`: `\$\{(\w*[Pp]aram\w*|\w*[Qq]uery\w*)\}`. -/
def reUndefVar : RE :=
  reSeq [RE.ch (.lit '$'), RE.ch (.lit lbr),
    RE.grp (RE.alt
      (reSeq [RE.star .word, RE.ch (.oneOf ['P', 'p']), reLit "aram", RE.star .word])
      (reSeq [RE.star .word, RE.ch (.oneOf ['Q', 'q']), reLit "uery", RE.star .word])),
    RE.ch (.lit rbr)]

/-- `errorPatterns.relativeUrls.regex`: `fetch\s*\(\s*['"`]\/api\/`. -/
def reRelUrl : RE :=
  reSeq [reLit "fetch", RE.star .ws, RE.ch (.lit '('), RE.star .ws,
    RE.ch (.oneOf [sqc, '"', btk]), reLit "/api/"]

/-- `errorPatterns.corsError.regex` (a literal, no global flag). -/
def reCors : RE := reLit "blocked by CORS policy"

/-- `errorPatterns.syntaxErrors.regex`: three literal alternatives, no global flag. -/
def reSynErr : RE :=
  RE.alt (reLit "SyntaxError") (RE.alt (reLit "Unexpected token") (reLit "Unexpected end of input"))

/-- Errors for every match of a global pattern (`code.match(re)` then `forEach`). -/
def patErrors (re : RE) (ty : ErrType) (sev : Severity) (msg : String) (fixable : Bool)
    (strat : String) (code : String) : List DetectedError :=
  (findAllMatches re code).map (fun m =>
    { type := ty, severity := sev, message := msg ++ ": " ++ m, locationCode := some m,
      autoFixable := fixable, fixStrategy := some strat })

/-- Error for the first match of a non-global pattern (`code.match(re)` yields
just the one match, so `forEach` fires once). -/
def patErrorFirst (re : RE) (ty : ErrType) (sev : Severity) (msg : String) (fixable : Bool)
    (strat : String) (code : String) : List DetectedError :=
  match findFirst re code.data with
  | some (_, m, _) =>
    [{ type := ty, severity := sev, message := msg ++ ": " ++ String.mk m,
       locationCode := some (String.mk m), autoFixable := fixable, fixStrategy := some strat }]
  | none => []

/-- error-detector.ts `detectErrors`: run every pattern in declaration order,
then the two context-dependent logical checks.  The optional `context`
argument is passed as its only consulted field, `context?.task?.category`. -/
def detectErrors (code : String) (ctxCategory : Option String) : List DetectedError :=
  patErrors reTL .template_literal .high
    "Template literal using single quotes instead of backticks" true "templateLiteralQuotes" code
  ++ patErrors reUndefVar .undefined_variable .critical
    "Undefined variable in template literal" true "undefinedVariables" code
  ++ (if (strIncludes code "useState" || strIncludes code "useEffect"
          || strIncludes code "useCallback") && !strIncludes code "import React" then
        [{ type := .missing_import, severity := .high, message := "React hook used without import",
           autoFixable := true, fixStrategy := some "addReactImport" }]
      else [])
  ++ patErrors reRelUrl .logical .high
    "Relative URL will not work in sandbox environment" true "relativeUrls" code
  ++ patErrorFirst reCors .cors .critical
    "CORS policy blocking cross-origin request" false "corsError" code
  ++ patErrorFirst reSynErr .synErr .critical
    "JavaScript syntax error detected" false "syntaxErrors" code
  ++ (if ctxCategory == some "financial"
          && !strIncludes code "fastprototype.vercel.app/api/market-data" then
        [{ type := .logical, severity := .high, message := "Financial app should use market data API",
           autoFixable := false }]
      else [])
  ++ (if strIncludes code dollarLbr && !strIncludes code "useState" then
        [{ type := .logical, severity := .medium,
           message := "Template literals used without proper state management",
           autoFixable := true, fixStrategy := some "addStateManagement" }]
      else [])

/-- `autoFixStrategies.templateLiteralQuotes`: rewrite every single-quoted
template string with backticks, keeping the body (`$1`). -/
def fixTemplateLiteralQuotes (code : String) : String :=
  replaceAllRE reTL [.lit btkS, .cap 1, .lit btkS] code

/-- `autoFixStrategies.undefinedVariables`: four global literal rewrites. -/
def fixUndefinedVariables (code : String) : String :=
  let f1 := replaceAllRE (reLit "${symbolsParam}") [.lit "${symbols}"] code
  let f2 := replaceAllRE (reLit "${symbolsQuery}") [.lit "${symbols}"] f1
  let f3 := replaceAllRE (reLit "${stocksParam}") [.lit "${stocks}"] f2
  replaceAllRE (reLit "${dataQuery}") [.lit "${query}"] f3

/-- The regex of the (unreachable) second branch of `addReactImport`:
`import React, \{ ([^}]+) \} from 'react';`. -/
def reImportReactLine : RE :=
  reSeq [reLit ("import React, " ++ lbrS ++ " "), RE.grp (RE.plus (.noneOf [rbr])),
    reLit (" " ++ rbrS ++ " from " ++ sqS ++ "react" ++ sqS ++ ";")]

/-- `autoFixStrategies.addReactImport`.  The second branch repeats the source
verbatim: its condition `includes('useEffect') && !includes('useEffect')` can
never hold. -/
def fixAddReactImport (code : String) : String :=
  if strIncludes code "useState" && !strIncludes code "import React" then
    "import React, " ++ lbrS ++ " useState " ++ rbrS ++ " from " ++ sqS ++ "react" ++ sqS
      ++ ";\n\n" ++ code
  else if strIncludes code "useEffect" && !strIncludes code "useEffect" then
    replaceFirstRE reImportReactLine
      [.lit ("import React, " ++ lbrS ++ " "), .cap 1,
       .lit (", useEffect " ++ rbrS ++ " from " ++ sqS ++ "react" ++ sqS ++ ";")] code
  else code

/-- The capture regex of `autoFixStrategies.relativeUrls`:
`fetch\s*\(\s*['"`](\/api\/[^'"`]+)['"`]`. -/
def reRelUrlFix : RE :=
  reSeq [reLit "fetch", RE.star .ws, RE.ch (.lit '('), RE.star .ws,
    RE.ch (.oneOf [sqc, '"', btk]),
    RE.grp (reSeq [reLit "/api/", RE.plus (.noneOf [sqc, '"', btk])]),
    RE.ch (.oneOf [sqc, '"', btk])]

/-- `autoFixStrategies.relativeUrls`. -/
def fixRelativeUrls (code : String) : String :=
  replaceAllRE reRelUrlFix
    [.lit ("fetch(" ++ btkS ++ "https://fastprototype.vercel.app"), .cap 1, .lit btkS] code

/-- The state declaration inserted by `addStateManagement`. -/
def stateDecl : String :=
  "const [symbols, setSymbols] = useState(" ++ sqS ++ "AAPL,GOOGL,MSFT" ++ sqS ++ ");"

/-- `(export default function \w+\(\) \{)`. -/
def reExpDefFun : RE :=
  RE.grp (reSeq [reLit "export default function ", RE.plus .word, reLit "() ", RE.ch (.lit lbr)])

/-- `(function \w+\([^)]*\) \{)`. -/
def reFunHdr : RE :=
  RE.grp (reSeq [reLit "function ", RE.plus .word, RE.ch (.lit '('),
    RE.star (.noneOf [')']), reLit ") ", RE.ch (.lit lbr)])

/-- `autoFixStrategies.addStateManagement` (first-match replace: no global flag). -/
def fixAddStateManagement (code : String) : String :=
  if strIncludes code "${symbols}" && !strIncludes code "useState" then
    if strIncludes code "export default function" then
      replaceFirstRE reExpDefFun [.cap 1, .lit ("\n  " ++ stateDecl ++ "\n")] code
    else if strIncludes code "function" then
      replaceFirstRE reFunHdr [.cap 1, .lit ("\n  " ++ stateDecl ++ "\n")] code
    else code
  else code

/-- The strategy table `autoFixStrategies`, looked up by `fixStrategy` key. -/
def applyStrategy : String → Option (String → String)
  | "templateLiteralQuotes" => some fixTemplateLiteralQuotes
  | "undefinedVariables" => some fixUndefinedVariables
  | "addReactImport" => some fixAddReactImport
  | "relativeUrls" => some fixRelativeUrls
  | "addStateManagement" => some fixAddStateManagement
  | _ => none

/-- Result of `autoFixCode`. -/
structure AutoFixResult where
  success : Bool
  fixedCode : Option String
  appliedFixes : List String
  remainingErrors : List DetectedError
deriving Repr, DecidableEq

/-- error-detector.ts `autoFixCode`: apply each fixable error's strategy once,
in detection order; a rewrite that changes nothing moves the error to
`remainingErrors`. -/
def autoFixCode (code : String) (errors : List DetectedError) : AutoFixResult :=
  let st := errors.foldl (fun (st : String × List String × List DetectedError) err =>
    let (fc, ap, rem) := st
    if err.autoFixable then
      match err.fixStrategy with
      | some strat =>
        match applyStrategy strat with
        | some f =>
          let fc' := f fc
          if fc' != fc then (fc', ap ++ [errTypeStr err.type ++ ": " ++ err.message], rem)
          else (fc, ap, rem ++ [err])
        | none => (fc, ap, rem ++ [err])
      | none => (fc, ap, rem ++ [err])
    else (fc, ap, rem ++ [err])) (code, [], [])
  { success := !st.2.1.isEmpty,
    fixedCode := if !st.2.1.isEmpty then some st.1 else none,
    appliedFixes := st.2.1,
    remainingErrors := st.2.2 }

/-- Result of `validateCode`. -/
structure ValidationResult where
  isValid : Bool
  issues : List String
deriving Repr, DecidableEq

/-- Count occurrences of one character (`(code.match(/\{/g) || []).length`). -/
def countChar (s : String) (c : Char) : Nat := s.data.countP (fun d => d == c)

/-- error-detector.ts `validateCode`: bracket balance plus two heuristics. -/
def validateCode (code : String) : ValidationResult :=
  let issues :=
    (if countChar code lbr != countChar code rbr then ["Mismatched braces"] else [])
    ++ (if countChar code '(' != countChar code ')' then ["Mismatched parentheses"] else [])
    ++ (if strIncludes code dollarLbr && !strIncludes code btkS then
          ["Template literals without backticks"] else [])
    ++ (if strIncludes code "useState" && !strIncludes code "import" then
          ["React hooks without imports"] else [])
  { isValid := issues.isEmpty, issues := issues }

/-! ## conversation-state.ts — ConversationStateManager -/

/-- Message roles. -/
inductive Role where
  | user
  | assistant
  | system
deriving Repr, DecidableEq

/-- Optional metadata of a conversation message. -/
structure MsgMetadata where
  editType : Option String := none
  filesModified : Option (List String) := none
  confidence : Option ℚ := none
deriving Repr, DecidableEq

/-- conversation-state.ts `ConversationMessage` (timestamps are the `Date`
values handed in by the clock, modelled as naturals). -/
structure ConversationMessage where
  role : Role
  content : String
  timestamp : Nat
  metadata : Option MsgMetadata := none
deriving Repr, DecidableEq

/-- The four preference categories `analyzeUserPreferences` writes into the
`userPreferences` record. -/
structure UserPreferences where
  styling : Option String := none
  componentStyle : Option String := none
  stateManagement : Option String := none
  testing : Option String := none
deriving Repr, DecidableEq

/-- One entry of `projectEvolution.recentEdits`. -/
structure RecentEdit where
  fileName : String
  editType : String
  timestamp : Nat
  description : String
deriving Repr, DecidableEq

/-- conversation-state.ts `ProjectEvolution`. -/
structure ProjectEvolution where
  components : List String
  recentEdits : List RecentEdit
  userPreferences : UserPreferences
  techStack : List String
  architecture : String
deriving Repr, DecidableEq

/-- conversation-state.ts `ConversationState`. -/
structure ConversationState where
  messages : List ConversationMessage
  projectEvolution : ProjectEvolution
  currentContext : List (String × String)
  sessionStartTime : Nat
  lastActivity : Nat
deriving Repr, DecidableEq

/-- `initializeState` at clock value `now`. -/
def initializeState (now : Nat) : ConversationState :=
  { messages := []
    projectEvolution :=
      { components := []
        recentEdits := []
        userPreferences := {}
        techStack := ["React", "TypeScript", "Next.js"]
        architecture := "component-based" }
    currentContext := []
    sessionStartTime := now
    lastActivity := now }

/-- `analyzeUserPreferences`: fixed keyword triggers over the lowercased user
message, each category written at most once per call (the method only touches
`userPreferences`, so it is modelled as a function on that record). -/
def analyzeUserPreferences (p : UserPreferences) (userMessage : String) : UserPreferences :=
  let message := lowerS userMessage
  let p :=
    if strIncludes message "tailwind" || strIncludes message "tw-" then
      { p with styling := some "tailwind" }
    else if strIncludes message "css modules" || strIncludes message ".module.css" then
      { p with styling := some "css-modules" }
    else if strIncludes message "styled-components" || strIncludes message "emotion" then
      { p with styling := some "css-in-js" }
    else p
  let p :=
    if strIncludes message "functional component" || strIncludes message "hooks" then
      { p with componentStyle := some "functional" }
    else if strIncludes message "class component" then
      { p with componentStyle := some "class" }
    else p
  let p :=
    if strIncludes message "zustand" || strIncludes message "jotai" then
      { p with stateManagement := some "zustand" }
    else if strIncludes message "redux" || strIncludes message "toolkit" then
      { p with stateManagement := some "redux" }
    else if strIncludes message "context" || strIncludes message "usecontext" then
      { p with stateManagement := some "context" }
    else p
  if strIncludes message "jest" || strIncludes message "testing-library" then
    { p with testing := some "jest" }
  else if strIncludes message "vitest" then
    { p with testing := some "vitest" }
  else p

/-- The cap step of `addMessage`: keep the last 50 once the length exceeds 50
(`this.state.messages.slice(-50)`). -/
def ringCap (msgs : List ConversationMessage) : List ConversationMessage :=
  if msgs.length > 50 then msgs.drop (msgs.length - 50) else msgs

/-- `addMessage`: push the message, update activity, analyze user preferences,
and keep only the last 50 messages. -/
def addMessage (st : ConversationState) (role : Role) (content : String)
    (metadata : Option MsgMetadata) (now : Nat) : ConversationState :=
  let message : ConversationMessage :=
    { role := role, content := content, timestamp := now, metadata := metadata }
  let prefs :=
    if role == .user then analyzeUserPreferences st.projectEvolution.userPreferences content
    else st.projectEvolution.userPreferences
  { st with
      messages := ringCap (st.messages ++ [message])
      lastActivity := now
      projectEvolution := { st.projectEvolution with userPreferences := prefs } }

/-- `getCurrentState` returns a (value-equal) snapshot of the state. -/
def getCurrentState (st : ConversationState) : ConversationState := st

/-- One `addMessage` call's arguments. -/
structure AddMessageCall where
  role : Role
  content : String
  metadata : Option MsgMetadata
  now : Nat
deriving Repr, DecidableEq

/-- The message an `addMessage` call constructs. -/
def mkMsg (c : AddMessageCall) : ConversationMessage :=
  { role := c.role, content := c.content, timestamp := c.now, metadata := c.metadata }

/-- Run a sequence of `addMessage` calls. -/
def addMessages (st : ConversationState) (calls : List AddMessageCall) : ConversationState :=
  calls.foldl (fun s c => addMessage s c.role c.content c.metadata c.now) st

/-! ## part_003 — CodebaseAnalyzer (chunking, keyword scoring, retrieval) -/

/-- Chunk types (`CodeChunk['type']`). -/
inductive ChunkType where
  | component
  | functionTy
  | classTy
  | interfaceTy
  | variableTy
  | other
deriving Repr, DecidableEq

/-- The string the source stores in a chunk's `type` field. -/
def chunkTypeStr : ChunkType → String
  | .component => "component"
  | .functionTy => "function"
  | .classTy => "class"
  | .interfaceTy => "interface"
  | .variableTy => "variable"
  | .other => "other"

/-- part_003 `CodeChunk` (the unused `embedding` field is omitted: the
embedding stage always yields `null`). -/
structure CodeChunk where
  id : String
  filePath : String
  content : String
  startLine : Nat
  endLine : Nat
  type : ChunkType
  name : Option String
deriving Repr, DecidableEq

/-- The five boundary patterns of `chunkCodeASTBased`, in object-key order. -/
inductive BoundaryPattern where
  | reactComponent
  | funcDecl
  | classDecl
  | interfaceDecl
  | variableDecl
deriving Repr, DecidableEq

/-- `^(export\s+)?(default\s+)?(?:const|function|class)\s+(\w+)` with the name
group captured (the source reads only the last group). -/
def rePatReactComponent : RE :=
  reSeq [RE.opt (reSeq [reLit "export", RE.plus .ws]),
    RE.opt (reSeq [reLit "default", RE.plus .ws]),
    RE.alt (reLit "const") (RE.alt (reLit "function") (reLit "class")),
    RE.plus .ws, RE.grp (RE.plus .word)]

/-- `^(?:export\s+)?(?:async\s+)?function\s+(\w+)`. -/
def rePatFunction : RE :=
  reSeq [RE.opt (reSeq [reLit "export", RE.plus .ws]),
    RE.opt (reSeq [reLit "async", RE.plus .ws]),
    reLit "function", RE.plus .ws, RE.grp (RE.plus .word)]

/-- `^(?:export\s+)?class\s+(\w+)`. -/
def rePatClass : RE :=
  reSeq [RE.opt (reSeq [reLit "export", RE.plus .ws]),
    reLit "class", RE.plus .ws, RE.grp (RE.plus .word)]

/-- `^(?:export\s+)?interface\s+(\w+)`. -/
def rePatInterface : RE :=
  reSeq [RE.opt (reSeq [reLit "export", RE.plus .ws]),
    reLit "interface", RE.plus .ws, RE.grp (RE.plus .word)]

/-- `^(?:export\s+)?(?:const|let|var)\s+(\w+)`. -/
def rePatVariable : RE :=
  reSeq [RE.opt (reSeq [reLit "export", RE.plus .ws]),
    RE.alt (reLit "const") (RE.alt (reLit "let") (reLit "var")),
    RE.plus .ws, RE.grp (RE.plus .word)]

/-- `mapPatternToType`. -/
def mapPatternToType : BoundaryPattern → ChunkType
  | .reactComponent => .component
  | .funcDecl => .functionTy
  | .classDecl => .classTy
  | .interfaceDecl => .interfaceTy
  | .variableDecl => .variableTy

/-- The regex of each boundary pattern. -/
def boundaryRE : BoundaryPattern → RE
  | .reactComponent => rePatReactComponent
  | .funcDecl => rePatFunction
  | .classDecl => rePatClass
  | .interfaceDecl => rePatInterface
  | .variableDecl => rePatVariable

/-- Try the five anchored patterns in order on a (trimmed) line; the name is
the capture of the matched pattern (`match[match.length - 1]`). -/
def matchBoundary (line : String) : Option (BoundaryPattern × String) :=
  [BoundaryPattern.reactComponent, .funcDecl, .classDecl, .interfaceDecl, .variableDecl].findSome?
    (fun pk =>
      match matchAt (boundaryRE pk) line.data with
      | some (_, caps) => some (pk, String.mk (caps.getD 0 []))
      | none => none)

/-- `lines.slice(a, b).join('\n')`. -/
def joinSlice (lines : List String) (a b : Nat) : String :=
  String.intercalate "\n" ((lines.drop a).take (b - a))

/-- The scan loop of `chunkCodeASTBased`: a boundary line closes the open
chunk at the previous line and opens a new one. -/
def chunkGo (filePath : String) (lines : List String) :
    Nat → List String → Option (Nat × ChunkType × String) → List CodeChunk → List CodeChunk
  | _, [], cur, acc =>
    match cur with
    | some (s, ty, nm) =>
      acc ++ [{ id := filePath ++ ":" ++ toString s, filePath := filePath,
                content := String.intercalate "\n" (lines.drop s),
                startLine := s, endLine := lines.length - 1, type := ty, name := some nm }]
    | none => acc
  | i, line :: rest, cur, acc =>
    match matchBoundary (trimS line) with
    | some (pk, nm) =>
      let acc' :=
        match cur with
        | some (s, ty, n) =>
          acc ++ [{ id := filePath ++ ":" ++ toString s, filePath := filePath,
                    content := joinSlice lines s i,
                    startLine := s, endLine := i - 1, type := ty, name := some n }]
        | none => acc
      chunkGo filePath lines (i + 1) rest (some (i, mapPatternToType pk, nm)) acc'
    | none => chunkGo filePath lines (i + 1) rest cur acc

/-- part_003 `chunkCodeASTBased`. -/
def chunkCodeASTBased (content : String) (filePath : String) : List CodeChunk :=
  let lines := splitLines content
  chunkGo filePath lines 0 lines none []

/-- part_003 `FileAnalysis`. -/
structure FileAnalysis where
  filePath : String
  language : String
  chunks : List CodeChunk
  dependencies : List String
  exports : List String
deriving Repr, DecidableEq

/-- `detectLanguage`. -/
def detectLanguage (filePath : String) : String :=
  let ext := lowerS (((splitOnCharL '.' filePath.data).map String.mk).getLastD "")
  if ext == "ts" then "typescript"
  else if ext == "tsx" then "typescript"
  else if ext == "js" then "javascript"
  else if ext == "jsx" then "javascript"
  else if ext == "py" then "python"
  else if ext == "java" then "java"
  else if ext == "css" then "css"
  else if ext == "html" then "html"
  else "text"

/-- `import.*from\s+['"`]([^'"`]+)['"`]` (global). -/
def reImport : RE :=
  reSeq [reLit "import", RE.star .anyNoNl, reLit "from", RE.plus .ws,
    RE.ch (.oneOf [sqc, '"', btk]),
    RE.grp (RE.plus (.noneOf [sqc, '"', btk])),
    RE.ch (.oneOf [sqc, '"', btk])]

/-- `export\s+(?:default\s+)?(?:const|function|class|interface)\s+(\w+)` (global). -/
def reExport : RE :=
  reSeq [reLit "export", RE.plus .ws, RE.opt (reSeq [reLit "default", RE.plus .ws]),
    RE.alt (reLit "const") (RE.alt (reLit "function") (RE.alt (reLit "class") (reLit "interface"))),
    RE.plus .ws, RE.grp (RE.plus .word)]

/-- `extractDependencies`: the capture of every import match. -/
def extractDependencies (content : String) : List String :=
  (findAllFuel reImport (content.data.length + 1) content.data).map
    (fun p => String.mk (p.2.getD 0 []))

/-- `extractExports`: the capture of every export match. -/
def extractExports (content : String) : List String :=
  (findAllFuel reExport (content.data.length + 1) content.data).map
    (fun p => String.mk (p.2.getD 0 []))

/-- part_003 `analyzeFile`. -/
def analyzeFile (filePath content : String) : FileAnalysis :=
  { filePath := filePath
    language := detectLanguage filePath
    chunks := chunkCodeASTBased content filePath
    dependencies := extractDependencies content
    exports := extractExports content }

/-- part_003 `analyzeCodebase`: index every file in order (the `Map` keeps
insertion order). -/
def analyzeCodebase (files : List (String × String)) : List FileAnalysis :=
  files.map (fun f => analyzeFile f.1 f.2)

/-- The searched text of `calculateKeywordScore`: lowercased path plus the
lowercased chunk contents joined by spaces. -/
def kwFileContent (analysis : FileAnalysis) : String :=
  lowerS analysis.filePath ++ " "
    ++ String.intercalate " " (analysis.chunks.map (fun c => lowerS c.content))

/-- part_003 `calculateKeywordScore`: 0.1 per occurrence of each query word of
length > 2 in path + chunk contents, capped at 1 per word, normalized. -/
def calculateKeywordScore (query : String) (analysis : FileAnalysis) : ℚ :=
  let queryWords := splitWs (lowerS query)
  let fileContent := kwFileContent analysis
  let score := queryWords.foldl (fun (sc : ℚ) word =>
    if word.length > 2 then
      sc + min ((countOccur fileContent word : ℚ) * (1 / 10)) 1
    else sc) 0
  min (score / (queryWords.length : ℚ)) 1

/-- Stable insert for a descending sort by score. -/
def insertByDesc (key : FileAnalysis × ℚ → ℚ) (x : FileAnalysis × ℚ) :
    List (FileAnalysis × ℚ) → List (FileAnalysis × ℚ)
  | [] => [x]
  | y :: ys => if key x > key y then x :: y :: ys else y :: insertByDesc key x ys

/-- Stable descending sort by score (`sort((a, b) => b.score - a.score)`). -/
def sortByScoreDesc (l : List (FileAnalysis × ℚ)) : List (FileAnalysis × ℚ) :=
  l.foldl (fun acc x => insertByDesc (fun p => p.2) x acc) []

/-- part_003 `findRelevantFiles`: keyword score weighted 0.4, semantic score
weighted 0.6 (always 0: `createEmbedding` returns `null`), keep scores above
the 0.1 relevance threshold, return the top `maxFiles`. -/
def findRelevantFiles (analyses : List FileAnalysis) (userQuery : String)
    (maxFiles : Nat := 5) : List FileAnalysis :=
  let scoredFiles := analyses.filterMap (fun analysis =>
    let keywordScore := calculateKeywordScore userQuery analysis
    let semanticScore : ℚ := 0
    let totalScore := keywordScore * (2 / 5) + semanticScore * (3 / 5)
    if totalScore > 1 / 10 then some (analysis, totalScore) else none)
  ((sortByScoreDesc scoredFiles).take maxFiles).map (fun p => p.1)

/-! ## plan-v2-enhanced/route.ts — estimateComplexity -/

/-- The `editType` enumeration of `IntentAnalysis`. -/
inductive EditType where
  | CREATE
  | UPDATE
  | FIX
  | ENHANCE
  | REFACTOR
deriving Repr, DecidableEq

/-- intent-analyzer `IntentAnalysis`. -/
structure IntentAnalysis where
  editType : EditType
  reasoning : String
  targetFiles : List String
  searchTerms : List String
  regexPatterns : Option (List String) := none
  expectedChanges : List String
  surgicalEdit : Bool
  confidence : ℚ
deriving Repr, DecidableEq

/-- Complexity classification. -/
inductive Complexity where
  | low
  | medium
  | high
deriving Repr, DecidableEq

/-- plan-v2-enhanced `estimateComplexity`: edit-type weight, capped target-file
count, capped codebase-size term, then the ≤3 / ≤6 thresholds. -/
def estimateComplexity (intentAnalysis : IntentAnalysis)
    (files : List (String × String)) : Complexity :=
  let w : ℚ :=
    match intentAnalysis.editType with
    | .FIX => 1
    | .UPDATE => 2
    | .ENHANCE => 3
    | .CREATE => 4
    | .REFACTOR => 5
  let complexityScore : ℚ :=
    w + (min intentAnalysis.targetFiles.length 3 : Nat)
      + min ((files.length : ℚ) / 10) 2
  if complexityScore ≤ 3 then .low
  else if complexityScore ≤ 6 then .medium
  else .high

/-! ## part_001 — SurgicalEditor -/

/-- part_001 `SurgicalEdit`. -/
structure SurgicalEdit where
  filePath : String
  originalContent : String
  modifiedContent : String
  changeDescription : String
  linesChanged : List Nat
deriving Repr, DecidableEq

/-- part_001 `EditConstraints`. -/
structure EditConstraints where
  maxFiles : Nat
  preserveStructure : Bool
  onlyRequestedChanges : Bool
  maintainFunctionality : Bool
deriving Repr, DecidableEq

/-- `getEditConstraints` (the `default` arm is unreachable: `editType` is the
five-member union). -/
def getEditConstraints (intent : IntentAnalysis) : EditConstraints :=
  let base : EditConstraints :=
    { preserveStructure := true, onlyRequestedChanges := true,
      maintainFunctionality := true, maxFiles := 1 }
  match intent.editType with
  | .UPDATE => { base with maxFiles := 1 }
  | .FIX => { base with maxFiles := 1 }
  | .ENHANCE => { base with maxFiles := 2 }
  | .CREATE => { base with maxFiles := 1, preserveStructure := false }
  | .REFACTOR => { base with maxFiles := 3 }

/-- Outcome of one completion-client call: the concatenated streamed text, or
a thrown transport error. -/
inductive LLMResponse where
  | ok (text : String)
  | err (msg : String)
deriving Repr, DecidableEq

/-- Three backticks. -/
def tripleTick : String := btkS ++ btkS ++ btkS

/-- The code-fence regex of `extractModifiedCode`:
three backticks, optional `tsx?|jsx?|javascript|typescript` tag, `\s*`,
lazily-captured body, `\s*`, three backticks. -/
def reCodeBlock : RE :=
  reSeq [reLit tripleTick,
    RE.opt (RE.alt (reSeq [reLit "ts", RE.opt (reLit "x")])
      (RE.alt (reSeq [reLit "js", RE.opt (reLit "x")])
        (RE.alt (reLit "javascript") (reLit "typescript")))),
    RE.star .ws, RE.grp (RE.starLzy .anyCh), RE.star .ws, reLit tripleTick]

/-- part_001 `extractModifiedCode`: fenced block body if present, else the
trimmed response. -/
def extractModifiedCode (response : String) : String :=
  match findFirst reCodeBlock response.data with
  | some (_, _, caps) => trimS (String.mk (caps.getD 0 []))
  | none => trimS response

/-- The filename regex `(.+\.(tsx?|jsx?))` with the outer group captured (the
inner extension group is never read). -/
def reFileNameCore : RE :=
  RE.grp (reSeq [RE.plus .anyNoNl, RE.ch (.lit '.'),
    RE.alt (reSeq [reLit "ts", RE.opt (reLit "x")])
      (reSeq [reLit "js", RE.opt (reLit "x")])])

/-- `\/\/\s*(.+\.(tsx?|jsx?))`. -/
def reFileComment1 : RE := reSeq [reLit "//", RE.star .ws, reFileNameCore]

/-- `\/\*\s*(.+\.(tsx?|jsx?))\s*\*\//`. -/
def reFileComment2 : RE :=
  reSeq [reLit "/*", RE.star .ws, reFileNameCore, RE.star .ws, reLit "*/"]

/-- `(?:export\s+default\s+|function\s+|const\s+)(\w+)`. -/
def reComponentName : RE :=
  reSeq [RE.alt (reSeq [reLit "export", RE.plus .ws, reLit "default", RE.plus .ws])
      (RE.alt (reSeq [reLit "function", RE.plus .ws]) (reSeq [reLit "const", RE.plus .ws])),
    RE.grp (RE.plus .word)]

/-- part_001 `extractCreatedFile`: filename comment on the first line, else a
name guessed from the first exported/declared identifier, else a generic name. -/
def extractCreatedFile (response : String) : String × String :=
  let lines := splitLines (trimS response)
  let firstLine := lines.headD ""
  let restJoined := trimS (String.intercalate "\n" (lines.drop 1))
  match findFirst reFileComment1 firstLine.data with
  | some (_, _, caps) => (String.mk (caps.getD 0 []), restJoined)
  | none =>
    match findFirst reFileComment2 firstLine.data with
    | some (_, _, caps) => (String.mk (caps.getD 0 []), restJoined)
    | none =>
      match findFirst reComponentName response.data with
      | some (_, _, caps) => (String.mk (caps.getD 0 []) ++ ".tsx", trimS response)
      | none => ("Component.tsx", trimS response)

/-- part_001 `calculateChangedLines`: 1-based indices where the line sequences
differ positionally, up to the longer length (a line present on one side only
is a difference). -/
def calculateChangedLines (original modified : String) : List Nat :=
  let originalLines := splitLines original
  let modifiedLines := splitLines modified
  (List.range (max originalLines.length modifiedLines.length)).filterMap (fun i =>
    if originalLines[i]? != modifiedLines[i]? then some (i + 1) else none)

/-- part_001 `performPrecisionEdit`: a completion failure, an empty
extraction, or an extraction equal to the original yields no edit. -/
def performPrecisionEdit (filePath originalContent : String) (intent : IntentAnalysis)
    (response : LLMResponse) : Option SurgicalEdit :=
  match response with
  | .err _ => none
  | .ok text =>
    let extractedCode := extractModifiedCode text
    if extractedCode == "" || extractedCode == originalContent then none
    else
      some { filePath := filePath, originalContent := originalContent,
             modifiedContent := extractedCode, changeDescription := intent.reasoning,
             linesChanged := calculateChangedLines originalContent extractedCode }

/-- part_001 `performPrecisionCreation`: new files carry empty
`originalContent` and an empty `linesChanged` list. -/
def performPrecisionCreation (intent : IntentAnalysis) (response : LLMResponse) :
    Option SurgicalEdit :=
  match response with
  | .err _ => none
  | .ok text =>
    let fc := extractCreatedFile text
    if fc.1 == "" || fc.2 == "" then none
    else
      some { filePath := fc.1, originalContent := "", modifiedContent := fc.2,
             changeDescription := "Created " ++ fc.1 ++ " - " ++ intent.reasoning,
             linesChanged := [] }

/-- intent-analyzer `CodebaseContext`. -/
structure CodebaseContext where
  files : List (String × String)
  fileStructure : String
  componentList : List String
  recentChanges : List String
deriving Repr, DecidableEq

/-- part_001 `performSurgicalEdit`: surgical mode edits each target file
present (and truthy, i.e. non-empty) in the snapshot, bounded by the
per-edit-type file cap; otherwise creation mode produces at most one edit.
The per-file completion responses are supplied by the `responses` oracle and
the creation response by `creationResponse`; a falsy (missing or empty) file
in the snapshot is skipped. -/
def surgicalPerFile (intentAnalysis : IntentAnalysis) (codebaseContext : CodebaseContext)
    (responses : String → LLMResponse) (targetFile : String) : Option SurgicalEdit :=
  match codebaseContext.files.lookup targetFile with
  | some content =>
    if content == "" then none
    else performPrecisionEdit targetFile content intentAnalysis (responses targetFile)
  | none => none

/-- The surgical-mode loop body: a per-file edit (or skip) appended in order. -/
def performSurgicalEdit (intentAnalysis : IntentAnalysis) (codebaseContext : CodebaseContext)
    (responses : String → LLMResponse) (creationResponse : LLMResponse) : List SurgicalEdit :=
  let constraints := getEditConstraints intentAnalysis
  if intentAnalysis.surgicalEdit && intentAnalysis.targetFiles.length > 0 then
    (intentAnalysis.targetFiles.take constraints.maxFiles).foldl (fun edits targetFile =>
      match surgicalPerFile intentAnalysis codebaseContext responses targetFile with
      | some e => edits ++ [e]
      | none => edits) []
  else
    match performPrecisionCreation intentAnalysis creationResponse with
    | some e => [e]
    | none => []

/-! ## part_005 — MultiPhaseReasoner -/

/-- `ReasoningPhase.status`. -/
inductive PhaseStatus where
  | pending
  | in_progress
  | completed
  | failed
deriving Repr, DecidableEq

/-- part_005 `ReasoningPhase` (the wall-clock `duration` and the untyped
`result` are omitted: no claim concerns them). -/
structure ReasoningPhase where
  name : String
  status : PhaseStatus
  error : Option String := none
deriving Repr, DecidableEq

/-- `StrategicPlan.approach`. -/
inductive PlanApproach where
  | surgical_edit
  | new_creation
  | multi_file_refactor
deriving Repr, DecidableEq

/-- part_005 `StrategicPlan`. -/
structure StrategicPlan where
  approach : PlanApproach
  reasoning : String
  phases : List String
  riskAssessment : List String
  successCriteria : List String
  estimatedComplexity : Complexity
deriving Repr, DecidableEq

/-- The `searchResults` record built by `performContextSearch`. -/
structure SearchResults where
  relevantFiles : List String
  matchedTerms : List String
  codeSnippets : List String
  confidence : ℚ
deriving Repr, DecidableEq

/-- part_005 `ReasoningResult`; on the failure path the source returns
`{} as IntentAnalysis` / `{} as StrategicPlan` (empty objects cast to the
types), modelled as `none`. -/
structure ReasoningResult where
  phases : List ReasoningPhase
  intentAnalysis : Option IntentAnalysis
  strategicPlan : Option StrategicPlan
  surgicalEdits : List SurgicalEdit
  success : Bool
deriving Repr, DecidableEq

/-- part_005 `executePhase`: append a phase record whose status reflects the
executor outcome; a thrown error is recorded and re-thrown. -/
def executePhase {α : Type} (phases : List ReasoningPhase) (phaseName : String)
    (executor : Except String α) : List ReasoningPhase × Except String α :=
  match executor with
  | .ok r => (phases ++ [{ name := phaseName, status := .completed }], .ok r)
  | .error e => (phases ++ [{ name := phaseName, status := .failed, error := some e }], .error e)

/-- part_005 `validateResults`: raises exactly when zero edits were produced
(`matchesIntent`); the `allFilesValid` check only emits a stream warning. -/
def validateResults (surgicalEdits : List SurgicalEdit) : Except String Unit :=
  let matchesIntent := surgicalEdits.length > 0
  if !matchesIntent then .error "Validation failed: No edits produced for user request"
  else .ok ()

/-- part_005 `executeMultiPhaseReasoning`: run the five phases in sequence;
the first thrown error is caught by the surrounding `try` and turned into a
failure result keeping the phases recorded so far.  The outcome of each
phase executor (each one a chain of completion-client calls) is supplied as
an `Except` parameter; the Validation executor is `validateResults` itself. -/
def executeMultiPhaseReasoning (intentR : Except String IntentAnalysis)
    (searchR : Except String SearchResults) (planR : Except String StrategicPlan)
    (editsR : Except String (List SurgicalEdit)) : ReasoningResult :=
  let failResult (phases : List ReasoningPhase) : ReasoningResult :=
    { phases := phases, intentAnalysis := none, strategicPlan := none,
      surgicalEdits := [], success := false }
  let p1 := executePhase [] "Intent Analysis" intentR
  match p1.2 with
  | .error _ => failResult p1.1
  | .ok intentAnalysis =>
    let p2 := executePhase p1.1 "Context Search" searchR
    match p2.2 with
    | .error _ => failResult p2.1
    | .ok _ =>
      let p3 := executePhase p2.1 "Strategic Planning" planR
      match p3.2 with
      | .error _ => failResult p3.1
      | .ok strategicPlan =>
        let p4 := executePhase p3.1 "Surgical Execution" editsR
        match p4.2 with
        | .error _ => failResult p4.1
        | .ok surgicalEdits =>
          let p5 := executePhase p4.1 "Validation" (validateResults surgicalEdits)
          match p5.2 with
          | .error _ => failResult p5.1
          | .ok _ =>
            { phases := p5.1, intentAnalysis := some intentAnalysis,
              strategicPlan := some strategicPlan, surgicalEdits := surgicalEdits,
              success := p5.1.all (fun p => p.status == .completed) }

/-! ## agentic-workflow/route.ts — executeWithRetryStreaming -/

/-- Per-attempt outcome of `runBuilderAgentStreaming`: a thrown exception, a
`success: false` result, or generated code. -/
inductive BuilderOutcome where
  | throwsErr (msg : String)
  | fails (msg : String)
  | ok (code : String)
deriving Repr, DecidableEq

/-- The `lastError` value carried between attempts: either the
`{ error, attempt }` record, or the `createErrorContext` record (its derived
`suggestions` field, a pure function of `remainingIssues`, is not repeated
here). -/
inductive LastError where
  | attemptFailure (error : String) (attempt : Nat)
  | errorContext (failedCode : String) (errors : List DetectedError)
      (fixes : List String) (remainingIssues : List String)
deriving Repr, DecidableEq

/-- The value returned by `executeWithRetryStreaming`: always a structured
result, never a thrown exception. -/
inductive RetryResult where
  | success (code : String) (attempts : Nat) (appliedFixes : List String)
  | failure (error : String) (attempts : Nat) (lastErrors : Option LastError)
deriving Repr, DecidableEq

/-- The loop body of `executeWithRetryStreaming`, with the builder modelled as
an oracle from attempt number to outcome.  The second component counts the
builder invocations actually made.  `remaining` is `maxRetries + 1 - (attempt - 1)`;
the builder context passed to `detectErrors` has no `task` field, so the
financial check is off (`none`).  `fixedCode!` is the non-null assertion:
on the path where it is read, `success = true` guarantees it is set. -/
def retryGo (env : Nat → BuilderOutcome) (maxRetries : Nat) :
    Nat → Nat → Option LastError → List String → RetryResult × Nat
  | 0, _, lastError, _ => (.failure "Max retries exceeded" (maxRetries + 1) lastError, 0)
  | remaining + 1, attempt, _, allFixes =>
    match env attempt with
    | .throwsErr msg =>
      let r := retryGo env maxRetries remaining (attempt + 1)
        (some (.attemptFailure msg attempt)) allFixes
      (r.1, r.2 + 1)
    | .fails msg =>
      let r := retryGo env maxRetries remaining (attempt + 1)
        (some (.attemptFailure msg attempt)) allFixes
      (r.1, r.2 + 1)
    | .ok code =>
      let errors := detectErrors code none
      if errors.isEmpty then (.success code attempt allFixes, 1)
      else
        let autoFixResult := autoFixCode code errors
        let allFixes' := allFixes ++ autoFixResult.appliedFixes
        if autoFixResult.success && autoFixResult.remainingErrors.isEmpty
            && (validateCode (autoFixResult.fixedCode.getD "")).isValid then
          (.success (autoFixResult.fixedCode.getD "") attempt allFixes', 1)
        else
          let ctx := LastError.errorContext code errors autoFixResult.appliedFixes
            (autoFixResult.remainingErrors.map (fun e => e.message))
          let r := retryGo env maxRetries remaining (attempt + 1) (some ctx) allFixes'
          (r.1, r.2 + 1)

/-- agentic-workflow `executeWithRetryStreaming`: attempts 1 .. maxRetries+1. -/
def executeWithRetryStreaming (env : Nat → BuilderOutcome) (maxRetries : Nat) :
    RetryResult × Nat :=
  retryGo env maxRetries (maxRetries + 1) 1 none []

/-! ## prompt-templates.ts (edit-examples-v2) — EditExamplesV2 -/

/-- Catalog confidence tiers. -/
inductive ConfTier where
  | high
  | medium
  | low
deriving Repr, DecidableEq

/-- edit-examples-v2 `EditExample` (`editType` is compared with the incoming
string, so it is kept as a string). -/
structure EditExample where
  pattern : String
  editType : String
  description : String
  searchTerms : List String
  regexPatterns : List String
  targetFileTypes : List String
  confidence : ConfTier
deriving Repr, DecidableEq

/-- edit-examples-v2 `EditPattern`. -/
structure EditPatternEntry where
  name : String
  examples : List EditExample
  applicableScenarios : List String
deriving Repr, DecidableEq

/-- The catalog regex fragment `['"].*?['"]`. -/
def qBr : String := "[" ++ sqS ++ "\"].*?[" ++ sqS ++ "\"]"

/-- The first catalog example (`CREATE_COMPONENT`). -/
def createComponentExample : EditExample :=
  { pattern := "CREATE_COMPONENT", editType := "CREATE"
    description := "Create new React component with TypeScript"
    searchTerms := ["component", "react", "tsx"]
    regexPatterns :=
      [ "export\\s+(?:default\\s+)?(?:function|const)\\s+\\w+"
      , "interface\\s+\\w+Props"
      , "import.*React" ]
    targetFileTypes := ["tsx", "jsx"], confidence := .high }

/-- The `Component Creation` catalog entry. -/
def componentCreationEntry : EditPatternEntry :=
  { name := "Component Creation"
    applicableScenarios := ["create new component", "add component", "new react component"]
    examples := [createComponentExample] }

/-- The `FIX_BUG` catalog example. -/
def fixBugExample : EditExample :=
  { pattern := "FIX_BUG", editType := "FIX"
    description := "Fix specific bug or error in existing code"
    searchTerms := ["error", "bug", "issue", "problem"]
    regexPatterns :=
      [ "throw\\s+new\\s+Error"
      , "console\\.error"
      , "try\\s*\\\x7b[\\s\\S]*?catch" ]
    targetFileTypes := ["ts", "tsx", "js", "jsx"], confidence := .medium }

/-- The `Bug Fixes` catalog entry. -/
def bugFixesEntry : EditPatternEntry :=
  { name := "Bug Fixes"
    applicableScenarios := ["fix bug", "resolve error", "correct issue"]
    examples := [fixBugExample] }

/-- The static catalog `this.patterns` of `EditExamplesV2`, transliterated
entry by entry (literal `{`/`}` characters are written `\x7b`/`\x7d`). -/
def editExamplesPatterns : List EditPatternEntry :=
  [ componentCreationEntry
  , { name := "Function Updates"
      applicableScenarios := ["update function", "modify method", "change function behavior"]
      examples :=
        [ { pattern := "UPDATE_FUNCTION", editType := "UPDATE"
            description := "Update existing function implementation"
            searchTerms := ["function", "const", "async", "return"]
            regexPatterns :=
              [ "(?:function|const)\\s+{FUNCTION_NAME}\\s*[=\\(]"
              , "{FUNCTION_NAME}\\s*:\\s*\\(.*?\\)\\s*=>"
              , "async\\s+function\\s+{FUNCTION_NAME}" ]
            targetFileTypes := ["ts", "tsx", "js", "jsx"], confidence := .high } ] }
  , bugFixesEntry
  , { name := "State Management"
      applicableScenarios := ["add state", "update state", "manage state"]
      examples :=
        [ { pattern := "ADD_STATE", editType := "ENHANCE"
            description := "Add or modify React state management"
            searchTerms := ["useState", "state", "setState"]
            regexPatterns :=
              [ "const\\s+\\[\\w+,\\s*\\w+\\]\\s*=\\s*useState"
              , "useState<.*?>\\("
              , "this\\.setState\\(" ]
            targetFileTypes := ["tsx", "jsx"], confidence := .high } ] }
  , { name := "Props Interface"
      applicableScenarios := ["add props", "update props", "change interface"]
      examples :=
        [ { pattern := "UPDATE_PROPS", editType := "UPDATE"
            description := "Update component props interface"
            searchTerms := ["Props", "interface", "type"]
            regexPatterns :=
              [ "interface\\s+\\w+Props\\s*\\\x7b"
              , "type\\s+\\w+Props\\s*="
              , "\\w+:\\s*React\\.FC<\\w+Props>" ]
            targetFileTypes := ["tsx", "ts"], confidence := .high } ] }
  , { name := "Import Statements"
      applicableScenarios := ["add import", "update import", "fix imports"]
      examples :=
        [ { pattern := "UPDATE_IMPORTS", editType := "FIX"
            description := "Add or update import statements"
            searchTerms := ["import", "from", "require"]
            regexPatterns :=
              [ "import\\s+.*?\\s+from\\s+" ++ qBr
              , "import\\s*\\\x7b.*?\\\x7d\\s*from"
              , "const\\s+.*?\\s*=\\s*require\\(" ]
            targetFileTypes := ["ts", "tsx", "js", "jsx"], confidence := .high } ] }
  , { name := "CSS Styling"
      applicableScenarios := ["add styles", "update css", "modify styling"]
      examples :=
        [ { pattern := "UPDATE_STYLES", editType := "ENHANCE"
            description := "Add or update CSS styling"
            searchTerms := ["className", "style", "css"]
            regexPatterns :=
              [ "className\\s*=\\s*" ++ qBr
              , "style\\s*=\\s*\\\x7b.*?\\\x7d"
              , "\\.\\w+\\s*\\\x7b[\\s\\S]*?\\\x7d" ]
            targetFileTypes := ["tsx", "jsx", "css", "scss"], confidence := .medium } ] }
  , { name := "Event Handlers"
      applicableScenarios := ["add handler", "update handler", "event handling"]
      examples :=
        [ { pattern := "ADD_HANDLER", editType := "ENHANCE"
            description := "Add or update event handlers"
            searchTerms := ["onClick", "onChange", "onSubmit", "handler"]
            regexPatterns :=
              [ "on\\w+\\s*=\\s*\\\x7b.*?\\\x7d"
              , "const\\s+handle\\w+\\s*="
              , "function\\s+handle\\w+\\(" ]
            targetFileTypes := ["tsx", "jsx"], confidence := .high } ] }
  , { name := "API Integration"
      applicableScenarios := ["api call", "fetch data", "http request"]
      examples :=
        [ { pattern := "ADD_API_CALL", editType := "ENHANCE"
            description := "Add API calls and data fetching"
            searchTerms := ["fetch", "axios", "api", "useEffect"]
            regexPatterns :=
              [ "fetch\\s*\\(\\s*" ++ qBr
              , "axios\\.(get|post|put|delete)"
              , "useEffect\\(\\(\\)\\s*=>\\s*\\\x7b[\\s\\S]*?\\\x7d\\s*,\\s*\\[\\]\\)" ]
            targetFileTypes := ["ts", "tsx", "js", "jsx"], confidence := .medium } ] }
  , { name := "Form Handling"
      applicableScenarios := ["form validation", "form submit", "input handling"]
      examples :=
        [ { pattern := "FORM_HANDLING", editType := "ENHANCE"
            description := "Add form handling and validation"
            searchTerms := ["form", "input", "validation", "submit"]
            regexPatterns :=
              [ "<form[^>]*onSubmit\\s*="
              , "<input[^>]*onChange\\s*="
              , "const\\s+\\w+Schema\\s*=\\s*\\w+\\.object" ]
            targetFileTypes := ["tsx", "jsx"], confidence := .high } ] }
  , { name := "Conditional Rendering"
      applicableScenarios := ["conditional display", "show hide", "render condition"]
      examples :=
        [ { pattern := "CONDITIONAL_RENDER", editType := "UPDATE"
            description := "Add conditional rendering logic"
            searchTerms := ["condition", "render", "if", "&&", "?"]
            regexPatterns :=
              [ "\\\x7b\\w+\\s*&&\\s*<"
              , "\\\x7b\\w+\\s*\\?\\s*<.*?>\\s*:\\s*<.*?>"
              , "if\\s*\\(.*?\\)\\s*\\\x7b[\\s\\S]*?return" ]
            targetFileTypes := ["tsx", "jsx"], confidence := .high } ] }
  , { name := "Hook Usage"
      applicableScenarios := ["use hook", "custom hook", "react hooks"]
      examples :=
        [ { pattern := "ADD_HOOKS", editType := "ENHANCE"
            description := "Add React hooks or custom hooks"
            searchTerms := ["use", "hook", "useState", "useEffect", "useMemo"]
            regexPatterns :=
              [ "const\\s+.*?\\s*=\\s*use\\w+\\("
              , "use\\w+\\<.*?\\>\\("
              , "function\\s+use\\w+\\(" ]
            targetFileTypes := ["tsx", "jsx", "ts", "js"], confidence := .high } ] }
  ]

/-- Scenario test of `findMatchingPatterns`: some scenario phrase occurs in
the lowercased prompt. -/
def scenarioMatch (pattern : EditPatternEntry) (promptLower : String) : Bool :=
  pattern.applicableScenarios.any (fun scenario => strIncludes promptLower (lowerS scenario))

/-- Search-term overlap test: bidirectional case-insensitive containment. -/
def termOverlapB (ex : EditExample) (searchTerms : List String) : Bool :=
  searchTerms.any (fun term =>
    ex.searchTerms.any (fun exampleTerm =>
      strIncludes (lowerS term) (lowerS exampleTerm)
        || strIncludes (lowerS exampleTerm) (lowerS term)))

/-- Processing of one catalog pattern inside `findMatchingPatterns`: on a
scenario match push the examples with the same edit type, then push every
example with term overlap that is not already collected. -/
def stepPattern (promptLower editType : String) (searchTerms : List String)
    (ms : List EditExample) (pattern : EditPatternEntry) : List EditExample :=
  let m1 :=
    if scenarioMatch pattern promptLower then
      ms ++ pattern.examples.filter (fun e => e.editType == editType)
    else ms
  pattern.examples.foldl (fun acc ex =>
    if termOverlapB ex searchTerms && !acc.contains ex then acc ++ [ex]
    else acc) m1

/-- `confidenceOrder`. -/
def confOrder : ConfTier → Nat
  | .high => 3
  | .medium => 2
  | .low => 1

/-- Stable insert for a sort descending by confidence tier. -/
def insertExByConfDesc (x : EditExample) : List EditExample → List EditExample
  | [] => [x]
  | y :: ys =>
    if confOrder x.confidence > confOrder y.confidence then x :: y :: ys
    else y :: insertExByConfDesc x ys

/-- Stable sort descending by confidence
(`sort((a, b) => confidenceOrder[b.confidence] - confidenceOrder[a.confidence])`). -/
def sortByConfDesc (l : List EditExample) : List EditExample :=
  l.foldl (fun acc x => insertExByConfDesc x acc) []

/-- edit-examples-v2 `findMatchingPatterns`, parameterized by the catalog
(`this.patterns`). -/
def findMatchingPatterns (patterns : List EditPatternEntry)
    (userPrompt editType : String) (searchTerms : List String) : List EditExample :=
  let promptLower := lowerS userPrompt
  sortByConfDesc (patterns.foldl (stepPattern promptLower editType searchTerms) [])

/-! ## Concrete inputs used by witnesses and counterexamples -/

/-- The last `n` elements of a list. -/
def lastN {α : Type} (n : Nat) (l : List α) : List α := l.drop (l.length - n)

/-- 51 `addMessage` calls. -/
def c3WitnessCalls : List AddMessageCall :=
  (List.range 51).map (fun i => { role := .user, content := "m", metadata := none, now := i })

/-- A surgical-mode intent targeting one file. -/
def c4Intent : IntentAnalysis :=
  { editType := .UPDATE, reasoning := "r", targetFiles := ["A.tsx"], searchTerms := [],
    expectedChanges := [], surgicalEdit := true, confidence := 1 }

/-- A one-file snapshot. -/
def c4Ctx : CodebaseContext :=
  { files := [("A.tsx", "old")], fileStructure := "", componentList := [], recentChanges := [] }

/-- The edit produced when the model answers `newcode` for `A.tsx`. -/
def c4WitnessEdit : SurgicalEdit :=
  { filePath := "A.tsx", originalContent := "old", modifiedContent := "newcode",
    changeDescription := "r", linesChanged := [1] }

/-- A creation-mode intent (`surgicalEdit = false`). -/
def c10Intent : IntentAnalysis :=
  { editType := .CREATE, reasoning := "r", targetFiles := [], searchTerms := [],
    expectedChanges := [], surgicalEdit := false, confidence := 1 }

/-- The creation response `// App.tsx` + one line of code. -/
def c10Response : LLMResponse := .ok ("// App.tsx\nconst x = 1")

/-- The edit produced by the creation path on `c10Response`. -/
def c10WitnessEdit : SurgicalEdit :=
  { filePath := "App.tsx", originalContent := "", modifiedContent := "const x = 1",
    changeDescription := "Created App.tsx - r", linesChanged := [] }

/-- Scenario D's two-file codebase: `Header.tsx` contains the word `toggle`,
`Footer.tsx` contains no query word. -/
def c6Files : List (String × String) :=
  [("Header.tsx", "const toggle = 1"), ("Footer.tsx", "const footer = 1")]

/-- Scenario B's input (braces written `\x7b`/`\x7d`). -/
def c7Input : String :=
  "function Foo() \x7b\n  return 1;\n\x7d\nfunction Bar() \x7b\n  return 2;\n\x7d"

/-- The C8 input `fetch('url/${x}')`. -/
def c8Input : String := "fetch(" ++ sqS ++ "url/${x}" ++ sqS ++ ")"

/-- The backtick-quoted rewrite of the C8 input. -/
def c8Fixed : String := "fetch(" ++ btkS ++ "url/${x}" ++ btkS ++ ")"

/-! ## Claims -/

/-- C1: in every orchestration run whose Surgical Execution phase produces an
empty list of SurgicalEdits (the first four phase executors succeeding), the
Validation phase raises the explicit "no edits produced" error, that phase is
recorded as `failed`, and the overall ReasoningResult has `success = false`. -/
theorem C1_validation_fails_on_zero_edits (ia : IntentAnalysis) (sr : SearchResults)
    (sp : StrategicPlan) :
    ({ name := "Validation", status := .failed,
       error := some "Validation failed: No edits produced for user request" } : ReasoningPhase)
      ∈ (executeMultiPhaseReasoning (.ok ia) (.ok sr) (.ok sp) (.ok [])).phases
    ∧ (executeMultiPhaseReasoning (.ok ia) (.ok sr) (.ok sp) (.ok [])).success = false := by
  constructor
  · simp [executeMultiPhaseReasoning, executePhase, validateResults]
  · rfl

/-- C8: on `fetch('url/${x}')`, `autoFixCode` (run on the errors detected for
that input) rewrites the single-quoted template string with backticks, and
re-running `detectErrors` on the fixed output yields zero `template_literal`
errors. -/
theorem C8_autofix_roundtrip :
    (autoFixCode c8Input (detectErrors c8Input none)).fixedCode = some c8Fixed
    ∧ (detectErrors c8Fixed none).filter (fun e => e.type == .template_literal) = [] :=
  ⟨rfl, rfl⟩

/-- The spec's edit-type base weight (FIX=1, UPDATE=2, ENHANCE=3, CREATE=4,
REFACTOR=5). -/
def specEditTypeBaseWeight : EditType → ℚ
  | .FIX => 1
  | .UPDATE => 2
  | .ENHANCE => 3
  | .CREATE => 4
  | .REFACTOR => 5

/-- The spec's weighted complexity score: base weight + min(targetFileCount, 3)
+ min(fileCount / 10, 2). -/
def specComplexityScore (editType : EditType) (targetFileCount fileCount : Nat) : ℚ :=
  specEditTypeBaseWeight editType + (min targetFileCount 3 : Nat)
    + min ((fileCount : ℚ) / 10) 2

/-- The spec's thresholds: score ≤ 3 → low, score ≤ 6 → medium, else high. -/
def specClassifyComplexity (s : ℚ) : Complexity :=
  if s ≤ 3 then .low else if s ≤ 6 then .medium else .high

/-- C9: the complexity estimate equals the classification of the weighted
score by the spec's thresholds, for every intent and codebase. -/
theorem C9_complexity_estimate (intent : IntentAnalysis) (files : List (String × String)) :
    estimateComplexity intent files
      = specClassifyComplexity
          (specComplexityScore intent.editType intent.targetFiles.length files.length) := by
  cases h : intent.editType <;>
    simp [estimateComplexity, specClassifyComplexity, specComplexityScore,
      specEditTypeBaseWeight, h]

/-- C7 counterexample: the claim's chunk spans and types are wrong for the
scenario input.  The input has six lines, so `Bar` spans lines 3-5 (not 3-4),
and `function Foo() {` matches the `reactComponent` pattern first, so both
chunks get type `component` (not `function`). -/
theorem C7_counterexample :
    ¬ ((chunkCodeASTBased c7Input "file.ts").map
          (fun c => (c.name, c.startLine, c.endLine, c.type))
        = [(some "Foo", 0, 2, ChunkType.functionTy), (some "Bar", 3, 4, ChunkType.functionTy)]) := by
  decide

/-- C7 amended: chunking the scenario input yields exactly two chunks, `Foo`
spanning 0-indexed lines 0-2 and `Bar` spanning lines 3-5 (the trailing `}`
is line 5), and both chunks have type `component` because the
`reactComponent` pattern is checked before the `function` pattern. -/
theorem C7_two_chunks :
    (chunkCodeASTBased c7Input "file.ts").map
        (fun c => (c.name, c.startLine, c.endLine, c.type))
      = [(some "Foo", 0, 2, ChunkType.component), (some "Bar", 3, 5, ChunkType.component)] := by
  decide

/-- The Footer.tsx keyword score is 0: no query word occurs. -/
theorem c6_footer_score :
    calculateKeywordScore "dark mode toggle" (analyzeFile "Footer.tsx" "const footer = 1") = 0 := by
  have hq : splitWs (lowerS "dark mode toggle") = ["dark", "mode", "toggle"] := by decide
  have hfc : kwFileContent (analyzeFile "Footer.tsx" "const footer = 1")
      = "footer.tsx const footer = 1" := by decide
  have h1 : countOccur "footer.tsx const footer = 1" "dark" = 0 := by decide
  have h2 : countOccur "footer.tsx const footer = 1" "mode" = 0 := by decide
  have h3 : countOccur "footer.tsx const footer = 1" "toggle" = 0 := by decide
  simp +decide [calculateKeywordScore, hq, hfc, h1, h2, h3]

/-- The Header.tsx keyword score is (1·0.1)/3 = 1/30. -/
theorem c6_header_score :
    calculateKeywordScore "dark mode toggle" (analyzeFile "Header.tsx" "const toggle = 1")
      = 1 / 30 := by
  have hq : splitWs (lowerS "dark mode toggle") = ["dark", "mode", "toggle"] := by decide
  have hfc : kwFileContent (analyzeFile "Header.tsx" "const toggle = 1")
      = "header.tsx const toggle = 1" := by decide
  have h1 : countOccur "header.tsx const toggle = 1" "dark" = 0 := by decide
  have h2 : countOccur "header.tsx const toggle = 1" "mode" = 0 := by decide
  have h3 : countOccur "header.tsx const toggle = 1" "toggle" = 1 := by decide
  simp +decide [calculateKeywordScore, hq, hfc, h1, h2, h3]
  norm_num

/-- C6 counterexample: with `Header.tsx` containing the word `toggle` once and
`Footer.tsx` containing no query word, `findRelevantFiles` for the query
"dark mode toggle" does not return `[Header.tsx]`: both total scores fall at
or below the 0.1 threshold, so the result is empty. -/
theorem C6_counterexample :
    ¬ ((findRelevantFiles (analyzeCodebase c6Files) "dark mode toggle" 5).map
          (fun a => a.filePath) = ["Header.tsx"]) := by
  have h : findRelevantFiles (analyzeCodebase c6Files) "dark mode toggle" 5 = [] := by
    norm_num [findRelevantFiles, analyzeCodebase, c6Files, c6_header_score, c6_footer_score,
      sortByScoreDesc, List.filterMap_cons, List.filterMap_nil]
  simp [h]

/-- C6 amended: both files are excluded and the result is empty.  `Footer.tsx`
scores 0; `Header.tsx`'s keyword score is min(1·0.1, 1)/3 = 1/30, so its
total score is 0.4·(1/30) = 1/75, which does not exceed the 0.1 relevance
threshold either. -/
theorem C6_retrieval_empty :
    findRelevantFiles (analyzeCodebase c6Files) "dark mode toggle" 5 = []
    ∧ calculateKeywordScore "dark mode toggle" (analyzeFile "Footer.tsx" "const footer = 1") = 0
    ∧ calculateKeywordScore "dark mode toggle" (analyzeFile "Header.tsx" "const toggle = 1")
        * (2 / 5) = 1 / 75
    ∧ ¬ ((1 : ℚ) / 75 > 1 / 10) := by
  refine ⟨?_, c6_footer_score, ?_, by norm_num⟩
  · norm_num [findRelevantFiles, analyzeCodebase, c6Files, c6_header_score, c6_footer_score,
      sortByScoreDesc, List.filterMap_cons, List.filterMap_nil]
  · rw [c6_header_score]; norm_num

/-- Keeping the last `n` of a trimmed-then-extended list equals keeping the
last `n` of the extended list. -/
theorem lastN_glue {α : Type} (n : Nat) (l ms : List α) :
    lastN n (lastN n l ++ ms) = lastN n (l ++ ms) := by
  unfold lastN
  rcases Nat.le_total l.length n with h | h
  · have h0 : l.length - n = 0 := Nat.sub_eq_zero_of_le h
    rw [h0, List.drop_zero]
  · rw [List.drop_append_eq_append_drop, List.drop_append_eq_append_drop, List.drop_drop]
    have e1 : (l.length - n) + ((l.drop (l.length - n) ++ ms).length - n)
        = (l ++ ms).length - n := by
      simp only [List.length_append, List.length_drop]
      omega
    have e2 : (l.drop (l.length - n) ++ ms).length - n - (l.drop (l.length - n)).length
        = (l ++ ms).length - n - l.length := by
      simp only [List.length_append, List.length_drop]
      omega
    rw [e1, e2]

/-- The cap step is exactly "keep the last 50". -/
theorem ringCap_eq_lastN (msgs : List ConversationMessage) : ringCap msgs = lastN 50 msgs := by
  unfold ringCap lastN
  split
  · rfl
  · next h =>
    have h0 : msgs.length - 50 = 0 := by omega
    rw [h0, List.drop_zero]

/-- `addMessage` keeps exactly the last 50 of the extended message list. -/
theorem addMessage_messages (st : ConversationState) (r : Role) (c : String)
    (md : Option MsgMetadata) (now : Nat) :
    (addMessage st r c md now).messages
      = lastN 50 (st.messages
          ++ [{ role := r, content := c, timestamp := now, metadata := md }]) := by
  rw [show (addMessage st r c md now).messages
      = ringCap (st.messages ++ [{ role := r, content := c, timestamp := now, metadata := md }])
    from rfl]
  exact ringCap_eq_lastN _

/-- Folding `addMessage` keeps exactly the last 50 of the start messages plus
all the added ones, whenever the start list is already within the cap. -/
theorem addMessages_messages (calls : List AddMessageCall) :
    ∀ st : ConversationState, lastN 50 st.messages = st.messages →
      (addMessages st calls).messages = lastN 50 (st.messages ++ calls.map mkMsg) := by
  induction calls with
  | nil => intro st h; simpa [addMessages] using h.symm
  | cons c cs ih =>
    intro st h
    have hstep := addMessage_messages st c.role c.content c.metadata c.now
    have hcap : lastN 50 (addMessage st c.role c.content c.metadata c.now).messages
        = (addMessage st c.role c.content c.metadata c.now).messages := by
      rw [hstep]
      have := lastN_glue 50 (st.messages ++ [mkMsg c]) ([] : List ConversationMessage)
      simpa [mkMsg] using this
    have := ih (addMessage st c.role c.content c.metadata c.now) hcap
    calc (addMessages st (c :: cs)).messages
        = (addMessages (addMessage st c.role c.content c.metadata c.now) cs).messages := by
          simp [addMessages]
      _ = lastN 50 ((addMessage st c.role c.content c.metadata c.now).messages
            ++ cs.map mkMsg) := this
      _ = lastN 50 (lastN 50 (st.messages ++ [mkMsg c]) ++ cs.map mkMsg) := by
          rw [hstep]; rfl
      _ = lastN 50 (st.messages ++ (c :: cs).map mkMsg) := by
          rw [lastN_glue]; simp

/-- C3: after N > 50 `addMessage` calls on a fresh manager, the retained
messages are exactly the 50 most recent in insertion order, and their count
is min(N, 50). -/
theorem C3_ring_buffer (calls : List AddMessageCall) (t0 : Nat) (h : calls.length > 50) :
    (getCurrentState (addMessages (initializeState t0) calls)).messages.length
        = min calls.length 50
    ∧ (getCurrentState (addMessages (initializeState t0) calls)).messages
        = (calls.map mkMsg).drop (calls.length - 50) := by
  have hbase : lastN 50 (initializeState t0).messages = (initializeState t0).messages := by
    simp [initializeState, lastN]
  have hmain := addMessages_messages calls (initializeState t0) hbase
  have hmsgs : (addMessages (initializeState t0) calls).messages
      = (calls.map mkMsg).drop (calls.length - 50) := by
    simpa [initializeState, lastN] using hmain
  refine ⟨?_, hmsgs⟩
  rw [getCurrentState, hmsgs]
  simp [List.length_drop]
  omega

/-- C3 witness: 51 calls on a fresh manager. -/
theorem C3_ring_buffer_witness :
    c3WitnessCalls.length > 50
    ∧ ((getCurrentState (addMessages (initializeState 0) c3WitnessCalls)).messages.length
          = min c3WitnessCalls.length 50
        ∧ (getCurrentState (addMessages (initializeState 0) c3WitnessCalls)).messages
          = (c3WitnessCalls.map mkMsg).drop (c3WitnessCalls.length - 50)) :=
  ⟨by decide, C3_ring_buffer c3WitnessCalls 0 (by decide)⟩

/-- Membership in the surgical-mode fold comes from the accumulator or from a
per-file result. -/
theorem surgical_foldl_mem (f : String → Option SurgicalEdit) :
    ∀ (l : List String) (acc : List SurgicalEdit) (x : SurgicalEdit),
      x ∈ l.foldl (fun edits t =>
        match f t with
        | some e => edits ++ [e]
        | none => edits) acc →
      x ∈ acc ∨ ∃ t, f t = some x := by
  intro l
  induction l with
  | nil => intro acc x h; exact Or.inl h
  | cons t ts ih =>
    intro acc x h
    simp only [List.foldl_cons] at h
    rcases hft : f t with _ | e
    · rw [hft] at h
      exact ih _ _ h
    · rw [hft] at h
      rcases ih _ _ h with hacc | hex
      · rcases List.mem_append.mp hacc with h1 | h2
        · exact Or.inl h1
        · right
          exact ⟨t, by rw [hft, List.mem_singleton.mp h2]⟩
      · exact Or.inr hex

/-- A produced precision edit never has `modifiedContent` equal to
`originalContent` (the no-op guard returns `null`). -/
theorem performPrecisionEdit_no_noop (fp oc : String) (intent : IntentAnalysis)
    (resp : LLMResponse) (e : SurgicalEdit)
    (h : performPrecisionEdit fp oc intent resp = some e) :
    e.modifiedContent ≠ e.originalContent := by
  cases resp with
  | err m => simp [performPrecisionEdit] at h
  | ok text =>
    simp only [performPrecisionEdit] at h
    split at h
    · simp at h
    · next hcond =>
      have he := Option.some.inj h
      simp only [Bool.or_eq_true, beq_iff_eq, not_or] at hcond
      rw [← he]
      exact hcond.2

/-- A produced creation edit has empty `originalContent`, empty `linesChanged`
and non-empty `modifiedContent`. -/
theorem performPrecisionCreation_fields (intent : IntentAnalysis) (resp : LLMResponse)
    (e : SurgicalEdit) (h : performPrecisionCreation intent resp = some e) :
    e.originalContent = "" ∧ e.linesChanged = [] ∧ e.modifiedContent ≠ "" := by
  cases resp with
  | err m => simp [performPrecisionCreation] at h
  | ok text =>
    simp only [performPrecisionCreation] at h
    split at h
    · simp at h
    · next hcond =>
      have he := Option.some.inj h
      simp only [Bool.or_eq_true, beq_iff_eq, not_or] at hcond
      rw [← he]
      exact ⟨rfl, rfl, hcond.2⟩

/-- C4: no edit produced by `performSurgicalEdit` has `modifiedContent` equal
to its `originalContent`; in particular, a model response whose extracted code
equals the original file content produces no edit for that file. -/
theorem C4_no_noop_edits (intent : IntentAnalysis) (ctx : CodebaseContext)
    (responses : String → LLMResponse) (creationResponse : LLMResponse)
    (edit : SurgicalEdit)
    (h : edit ∈ performSurgicalEdit intent ctx responses creationResponse) :
    edit.modifiedContent ≠ edit.originalContent := by
  unfold performSurgicalEdit at h
  split at h
  · rcases surgical_foldl_mem (surgicalPerFile intent ctx responses) _ _ _ h with hacc | ⟨t, ht⟩
    · simp at hacc
    · unfold surgicalPerFile at ht
      rcases hlk : ctx.files.lookup t with _ | content
      · rw [hlk] at ht; simp at ht
      · rw [hlk] at ht
        by_cases hc0 : content = ""
        · subst hc0; simp at ht
        · have ht' : performPrecisionEdit t content intent (responses t) = some edit := by
            simpa [hc0] using ht
          exact performPrecisionEdit_no_noop _ _ _ _ _ ht'
  · rcases hc : performPrecisionCreation intent creationResponse with _ | e
    · rw [hc] at h; simp at h
    · rw [hc] at h
      have hf := performPrecisionCreation_fields _ _ _ hc
      have hedit : edit = e := by simpa using h
      rw [hedit, hf.1]
      exact hf.2.2

/-- C4 witness: a surgical run where the model answers different code. -/
theorem C4_no_noop_edits_witness :
    c4WitnessEdit ∈ performSurgicalEdit c4Intent c4Ctx (fun _ => .ok "newcode") (.err "x")
    ∧ c4WitnessEdit.modifiedContent ≠ c4WitnessEdit.originalContent :=
  ⟨by decide, C4_no_noop_edits c4Intent c4Ctx (fun _ => .ok "newcode") (.err "x")
    c4WitnessEdit (by decide)⟩

/-- C10: every edit produced on the creation path (`intent.surgicalEdit =
false`) has empty `originalContent` and an empty `linesChanged` list, so a
newly created file is reported with zero changed lines. -/
theorem C10_creation_zero_lines (intent : IntentAnalysis) (ctx : CodebaseContext)
    (responses : String → LLMResponse) (creationResponse : LLMResponse)
    (edit : SurgicalEdit) (hs : intent.surgicalEdit = false)
    (h : edit ∈ performSurgicalEdit intent ctx responses creationResponse) :
    edit.originalContent = "" ∧ edit.linesChanged = [] := by
  unfold performSurgicalEdit at h
  rw [hs] at h
  simp only [Bool.false_and, if_false] at h
  rcases hc : performPrecisionCreation intent creationResponse with _ | e
  · rw [hc] at h; simp at h
  · rw [hc] at h
    have hf := performPrecisionCreation_fields _ _ _ hc
    have hedit : edit = e := by simpa using h
    rw [hedit]
    exact ⟨hf.1, hf.2.1⟩

/-- C10 witness: a creation run producing one edit. -/
theorem C10_creation_zero_lines_witness :
    c10Intent.surgicalEdit = false
    ∧ c10WitnessEdit ∈ performSurgicalEdit c10Intent c4Ctx (fun _ => .err "x") c10Response
    ∧ (c10WitnessEdit.originalContent = "" ∧ c10WitnessEdit.linesChanged = []) :=
  ⟨rfl, by decide,
   C10_creation_zero_lines c10Intent c4Ctx (fun _ => .err "x") c10Response
     c10WitnessEdit rfl (by decide)⟩

/-- The retry loop makes at most `remaining` builder invocations. -/
theorem retryGo_calls_le (env : Nat → BuilderOutcome) (maxRetries : Nat) :
    ∀ remaining attempt le fixes,
      (retryGo env maxRetries remaining attempt le fixes).2 ≤ remaining := by
  intro remaining
  induction remaining with
  | zero => intro attempt le fixes; simp [retryGo]
  | succ r ih =>
    intro attempt le fixes
    rcases henv : env attempt with msg | msg | code
    · simp only [retryGo, henv]
      exact Nat.succ_le_succ (ih (attempt + 1) _ _)
    · simp only [retryGo, henv]
      exact Nat.succ_le_succ (ih (attempt + 1) _ _)
    · simp only [retryGo, henv]
      split
      · simp
      · split
        · simp
        · exact Nat.succ_le_succ (ih (attempt + 1) _ _)

/-- A failure result of the retry loop carries the fixed error message, the
attempt total `maxRetries + 1`, and (as long as an attempt ran or an error
context was already present) a populated last-error context. -/
theorem retryGo_failure (env : Nat → BuilderOutcome) (maxRetries : Nat) :
    ∀ remaining attempt le fixes e a le',
      (retryGo env maxRetries remaining attempt le fixes).1 = .failure e a le' →
      (0 < remaining ∨ le.isSome) →
      e = "Max retries exceeded" ∧ a = maxRetries + 1 ∧ le'.isSome := by
  intro remaining
  induction remaining with
  | zero =>
    intro attempt le fixes e a le' h hp
    simp only [retryGo] at h
    injection h with he ha hle
    refine ⟨he.symm, ha.symm, ?_⟩
    rcases hp with hp | hp
    · omega
    · rw [← hle]; exact hp
  | succ r ih =>
    intro attempt le fixes e a le' h _
    rcases henv : env attempt with msg | msg | code
    · rw [retryGo, henv] at h
      exact ih (attempt + 1) _ _ _ _ _ h (Or.inr rfl)
    · rw [retryGo, henv] at h
      exact ih (attempt + 1) _ _ _ _ _ h (Or.inr rfl)
    · rw [retryGo, henv] at h
      simp only at h
      split at h
      · simp at h
      · split at h
        · simp at h
        · exact ih (attempt + 1) _ _ _ _ _ h (Or.inr rfl)

/-- C2: for every builder/detector/auto-fix outcome sequence and every
`maxRetries`, the retry loop invokes the builder at most `maxRetries + 1`
times, and a result of exhausted attempts is a structured failure (the
function is total: it cannot raise) carrying the `Max retries exceeded`
message, the attempt total, and the last error context. -/
theorem C2_retry_bound (env : Nat → BuilderOutcome) (maxRetries : Nat) :
    (executeWithRetryStreaming env maxRetries).2 ≤ maxRetries + 1
    ∧ ∀ e a le, (executeWithRetryStreaming env maxRetries).1 = .failure e a le →
        e = "Max retries exceeded" ∧ a = maxRetries + 1 ∧ le.isSome := by
  constructor
  · exact retryGo_calls_le env maxRetries (maxRetries + 1) 1 none []
  · intro e a le h
    exact retryGo_failure env maxRetries (maxRetries + 1) 1 none [] e a le h
      (Or.inl (by omega))

/-- C2 witness: with a builder that fails every attempt and `maxRetries = 1`,
the loop makes 2 invocations and returns the failure result. -/
theorem C2_retry_bound_witness :
    (executeWithRetryStreaming (fun _ => .fails "boom") 1).2 ≤ 1 + 1
    ∧ ("Max retries exceeded" = "Max retries exceeded" ∧ 2 = 1 + 1
        ∧ (some (LastError.attemptFailure "boom" 2)).isSome) :=
  ⟨(C2_retry_bound (fun _ => .fails "boom") 1).1,
   (C2_retry_bound (fun _ => .fails "boom") 1).2 "Max retries exceeded" 2
     (some (.attemptFailure "boom" 2)) (by decide)⟩

/-- Insertion into the confidence-sorted list preserves (and adds) members. -/
theorem mem_insertExByConfDesc (x y : EditExample) :
    ∀ l : List EditExample, (x = y ∨ x ∈ l) → x ∈ insertExByConfDesc y l := by
  intro l
  induction l with
  | nil =>
    intro h
    rcases h with h | h
    · simp [insertExByConfDesc, h]
    · simp at h
  | cons z zs ih =>
    intro h
    unfold insertExByConfDesc
    split
    · rcases h with h | h
      · simp [h]
      · simp [h]
    · rcases h with h | h
      · exact List.mem_cons_of_mem z (ih (Or.inl h))
      · rcases List.mem_cons.mp h with h1 | h2
        · simp [h1]
        · exact List.mem_cons_of_mem z (ih (Or.inr h2))

/-- Every element of the input or accumulator survives the sorting fold. -/
theorem mem_sortFold (x : EditExample) :
    ∀ (l acc : List EditExample), (x ∈ acc ∨ x ∈ l) →
      x ∈ l.foldl (fun acc y => insertExByConfDesc y acc) acc := by
  intro l
  induction l with
  | nil =>
    intro acc h
    rcases h with h | h
    · simpa using h
    · simp at h
  | cons y ys ih =>
    intro acc h
    simp only [List.foldl_cons]
    rcases h with h | h
    · exact ih _ (Or.inl (mem_insertExByConfDesc x y acc (Or.inr h)))
    · rcases List.mem_cons.mp h with h1 | h2
      · exact ih _ (Or.inl (mem_insertExByConfDesc x y acc (Or.inl h1)))
      · exact ih _ (Or.inr h2)

/-- Sorting by confidence preserves membership. -/
theorem mem_sortByConfDesc (x : EditExample) (l : List EditExample) (h : x ∈ l) :
    x ∈ sortByConfDesc l :=
  mem_sortFold x l [] (Or.inr h)

/-- The term-overlap fold only grows the accumulator. -/
theorem mem_overlapFold_mono (terms : List String) (x : EditExample) :
    ∀ (l acc : List EditExample), x ∈ acc →
      x ∈ l.foldl (fun acc ex =>
        if termOverlapB ex terms && !acc.contains ex then acc ++ [ex] else acc) acc := by
  intro l
  induction l with
  | nil => intro acc h; simpa using h
  | cons y ys ih =>
    intro acc h
    simp only [List.foldl_cons]
    split
    · exact ih _ (List.mem_append.mpr (Or.inl h))
    · exact ih _ h

/-- An overlapping example of the processed list ends up in the fold result. -/
theorem mem_overlapFold_add (terms : List String) (x : EditExample)
    (hov : termOverlapB x terms = true) :
    ∀ (l acc : List EditExample), x ∈ l →
      x ∈ l.foldl (fun acc ex =>
        if termOverlapB ex terms && !acc.contains ex then acc ++ [ex] else acc) acc := by
  intro l
  induction l with
  | nil => intro acc h; simp at h
  | cons y ys ih =>
    intro acc h
    simp only [List.foldl_cons]
    rcases List.mem_cons.mp h with h1 | h2
    · subst h1
      by_cases hc : acc.contains x
      · have hx : x ∈ acc := by simpa using hc
        split
        · exact mem_overlapFold_mono terms x ys _ (List.mem_append.mpr (Or.inl hx))
        · exact mem_overlapFold_mono terms x ys _ hx
      · rw [hov]
        simp only [hc, Bool.not_false, Bool.and_true, if_true]
        exact mem_overlapFold_mono terms x ys _ (List.mem_append.mpr (Or.inr (by simp)))
    · split
      · exact ih _ h2
      · exact ih _ h2

/-- `stepPattern` only grows the match list. -/
theorem mem_stepPattern_mono (pl et : String) (terms : List String) (x : EditExample)
    (ms : List EditExample) (p : EditPatternEntry) (h : x ∈ ms) :
    x ∈ stepPattern pl et terms ms p := by
  unfold stepPattern
  split
  · exact mem_overlapFold_mono terms x p.examples _ (List.mem_append.mpr (Or.inl h))
  · exact mem_overlapFold_mono terms x p.examples _ h

/-- `stepPattern` collects an example of its pattern when the scenario + edit
type pair matches, or when the search terms overlap. -/
theorem mem_stepPattern_add (pl et : String) (terms : List String) (e : EditExample)
    (ms : List EditExample) (p : EditPatternEntry) (he : e ∈ p.examples)
    (hcond : (scenarioMatch p pl = true ∧ e.editType = et) ∨ termOverlapB e terms = true) :
    e ∈ stepPattern pl et terms ms p := by
  unfold stepPattern
  rcases hcond with ⟨hs, het⟩ | hov
  · rw [hs]
    simp only [if_true]
    refine mem_overlapFold_mono terms e p.examples _ ?_
    refine List.mem_append.mpr (Or.inr ?_)
    exact List.mem_filter.mpr ⟨he, by simp [het]⟩
  · split
    · exact mem_overlapFold_add terms e hov p.examples _ he
    · exact mem_overlapFold_add terms e hov p.examples _ he

/-- The pattern fold only grows the match list. -/
theorem mem_patternFold_mono (pl et : String) (terms : List String) (x : EditExample) :
    ∀ (ps : List EditPatternEntry) (acc : List EditExample), x ∈ acc →
      x ∈ ps.foldl (stepPattern pl et terms) acc := by
  intro ps
  induction ps with
  | nil => intro acc h; simpa using h
  | cons q qs ih =>
    intro acc h
    simp only [List.foldl_cons]
    exact ih _ (mem_stepPattern_mono pl et terms x acc q h)

/-- A matching example of any processed pattern survives the pattern fold. -/
theorem mem_patternFold_add (pl et : String) (terms : List String)
    (p : EditPatternEntry) (e : EditExample) (he : e ∈ p.examples)
    (hcond : (scenarioMatch p pl = true ∧ e.editType = et) ∨ termOverlapB e terms = true) :
    ∀ (ps : List EditPatternEntry) (acc : List EditExample), p ∈ ps →
      e ∈ ps.foldl (stepPattern pl et terms) acc := by
  intro ps
  induction ps with
  | nil => intro acc h; simp at h
  | cons q qs ih =>
    intro acc h
    simp only [List.foldl_cons]
    rcases List.mem_cons.mp h with h1 | h2
    · subst h1
      exact mem_patternFold_mono pl et terms e qs _
        (mem_stepPattern_add pl et terms e acc _ he hcond)
    · exact ih _ h2

/-- C5 (amended): `findMatchingPatterns` returns a catalog example whenever
(a) one of its parent scenario phrases occurs in the lowercased prompt AND
(b) its editType equals the given one, OR (c) some of its search terms and
some candidate term are substrings of one another case-insensitively.  (An
editType match alone, without a scenario or term match, is not sufficient:
see the counterexample.) -/
theorem C5_matching_rule (patterns : List EditPatternEntry) (userPrompt editType : String)
    (searchTerms : List String) (p : EditPatternEntry) (e : EditExample)
    (hp : p ∈ patterns) (he : e ∈ p.examples)
    (hcond : (scenarioMatch p (lowerS userPrompt) = true ∧ e.editType = editType)
      ∨ termOverlapB e searchTerms = true) :
    e ∈ findMatchingPatterns patterns userPrompt editType searchTerms := by
  unfold findMatchingPatterns
  exact mem_sortByConfDesc e _
    (mem_patternFold_add (lowerS userPrompt) editType searchTerms p e he hcond patterns [] hp)

/-- C5 counterexample: an exact editType match alone does not make
`findMatchingPatterns` return the example.  For the prompt "zzz" (no scenario
phrase) with editType "CREATE" and no search terms, the CREATE_COMPONENT
example satisfies condition (b) of the claim but the result is empty. -/
theorem C5_counterexample :
    ¬ (∀ (userPrompt editType : String) (searchTerms : List String)
        (p : EditPatternEntry) (e : EditExample),
        p ∈ editExamplesPatterns → e ∈ p.examples →
        (scenarioMatch p (lowerS userPrompt) = true ∨ e.editType = editType
          ∨ termOverlapB e searchTerms = true) →
        e ∈ findMatchingPatterns editExamplesPatterns userPrompt editType searchTerms) := by
  intro hclaim
  have hmem := hclaim "zzz" "CREATE" [] componentCreationEntry createComponentExample
    (by decide) (by decide) (Or.inr (Or.inl rfl))
  exact absurd hmem (by decide)

/-- C5 witness: the prompt "please fix bug now" contains the scenario phrase
"fix bug" and the editType matches, so FIX_BUG is returned. -/
theorem C5_matching_rule_witness :
    (bugFixesEntry ∈ editExamplesPatterns ∧ fixBugExample ∈ bugFixesEntry.examples
      ∧ scenarioMatch bugFixesEntry (lowerS "please fix bug now") = true
      ∧ fixBugExample.editType = "FIX")
    ∧ fixBugExample ∈ findMatchingPatterns editExamplesPatterns "please fix bug now" "FIX" [] :=
  ⟨⟨by decide, by decide, by decide, rfl⟩,
   C5_matching_rule editExamplesPatterns "please fix bug now" "FIX" [] bugFixesEntry
     fixBugExample (by decide) (by decide) (Or.inl ⟨by decide, rfl⟩)⟩
